import Mathlib

/-!
Verification development for the Derecho core: a shallow embedding of the
data model and operations of the repository (SST counter fields, the
multicast engine's parameters and round-robin delivery order, the GMS
counter protocol, the latency-test membership and stability callbacks, and
the configuration string splitter), together with theorems settling the
specified properties.

Machine integers are modelled as `Nat`/`Int`, with explicit reduction
modulo `2 ^ 64` wherever C++ unsigned 64-bit overflow can occur.
-/

set_option maxRecDepth 4096

/-! ## Multicast message header (multicast_group.hpp, struct header, lines 39-49)

The packed on-wire header is embedded as an ordered field table: each entry
records the field's name, its size in bytes, and whether it is signed.
`__attribute__((__packed__))` means offsets are exactly the running sums of
the sizes, with no padding. -/

inductive HFieldName
  | header_size
  | index
  | timestamp
  | num_nulls
  | cooked_send
  | resv_b1
  | resv_b2
  | resv_b3
  | resv_q4
deriving DecidableEq, Repr

structure CField where
  fname : HFieldName
  size : Nat
  signed : Bool
deriving DecidableEq, Repr

/-- The fields of `struct header`, in declaration order, with their C type
sizes: `uint32_t header_size; int32_t index; uint64_t timestamp;
uint32_t num_nulls; uint8_t cooked_send; uint8_t resv_b1; uint8_t resv_b2;
uint8_t resv_b3; uint64_t resv_q4;`. -/
def header_fields : List CField :=
  [⟨HFieldName.header_size, 4, false⟩,
   ⟨HFieldName.index, 4, true⟩,
   ⟨HFieldName.timestamp, 8, false⟩,
   ⟨HFieldName.num_nulls, 4, false⟩,
   ⟨HFieldName.cooked_send, 1, false⟩,
   ⟨HFieldName.resv_b1, 1, false⟩,
   ⟨HFieldName.resv_b2, 1, false⟩,
   ⟨HFieldName.resv_b3, 1, false⟩,
   ⟨HFieldName.resv_q4, 8, false⟩]

/-- `sizeof(header)` for the packed struct: the sum of the field sizes. -/
def sizeof_header : Nat := (header_fields.map (fun f => f.size)).sum

/-- Byte offset of the first field named `n` in a packed field list:
the sum of the sizes of all fields before it. -/
def offset_of (fields : List CField) (n : HFieldName) : Nat :=
  match fields with
  | [] => 0
  | f :: rest => if f.fname = n then 0 else f.size + offset_of rest n

/-- Size lookup for the first field named `n` (0 if absent). -/
def size_of_field (fields : List CField) (n : HFieldName) : Nat :=
  match fields with
  | [] => 0
  | f :: rest => if f.fname = n then f.size else size_of_field rest n

/-- Signedness lookup for the first field named `n` (false if absent). -/
def signed_of_field (fields : List CField) (n : HFieldName) : Bool :=
  match fields with
  | [] => false
  | f :: rest => if f.fname = n then f.signed else signed_of_field rest n

/-! ## DerechoParams (multicast_group.hpp, lines 55-171) -/

/-- Reduction modulo `2 ^ 64`: C++ `uint64_t` arithmetic wraps here. -/
def u64_wrap (x : Nat) : Nat := x % 2 ^ 64

/-- `DerechoParams::compute_max_msg_size` (multicast_group.hpp lines 79-90):
`max_msg_size = max_payload_size + sizeof(header)`; if RDMC is in use and
that is not a multiple of `block_size`, round up to the next multiple.
All arithmetic is `uint64_t`, i.e. modulo `2 ^ 64`. -/
def compute_max_msg_size (max_payload_size block_size : Nat) (using_rdmc : Bool) : Nat :=
  let max_msg_size := u64_wrap (max_payload_size + sizeof_header)
  if using_rdmc then
    if max_msg_size % block_size ≠ 0 then
      u64_wrap ((max_msg_size / block_size + 1) * block_size)
    else
      max_msg_size
  else
    max_msg_size

/-- The subset of `DerechoParams` fields relevant to message sizing. -/
structure DerechoParams where
  max_msg_size : Nat
  max_reply_msg_size : Nat
  sst_max_msg_size : Nat
  block_size : Nat
deriving DecidableEq, Repr

/-- The `DerechoParams` constructor (multicast_group.hpp lines 106-124):
`max_reply_msg_size = max_reply_payload_size + sizeof(header)`,
`sst_max_msg_size = max_smc_payload_size + sizeof(header)`, and
`max_msg_size = compute_max_msg_size(max_payload_size, block_size,
max_payload_size > max_smc_payload_size)`; `uint64_t` arithmetic. -/
def DerechoParams.make (max_payload_size max_reply_payload_size max_smc_payload_size
    block_size : Nat) : DerechoParams :=
  ⟨compute_max_msg_size max_payload_size block_size
      (decide (max_smc_payload_size < max_payload_size)),
   u64_wrap (max_reply_payload_size + sizeof_header),
   u64_wrap (max_smc_payload_size + sizeof_header),
   block_size⟩

/-! ## send_algorithm_from_string (multicast_group.hpp, lines 92-104) -/

inductive SendAlgorithm
  | BINOMIAL_SEND
  | CHAIN_SEND
  | SEQUENTIAL_SEND
  | TREE_SEND
deriving DecidableEq, Repr

/-- `DerechoParams::send_algorithm_from_string`: four recognized strings map
to the four algorithms; any other string makes the function throw (embedded
as `Except.error`) the message built from the input. -/
def send_algorithm_from_string (s : String) : Except String SendAlgorithm :=
  if s = "binomial_send" then Except.ok SendAlgorithm.BINOMIAL_SEND
  else if s = "chain_send" then Except.ok SendAlgorithm.CHAIN_SEND
  else if s = "sequential_send" then Except.ok SendAlgorithm.SEQUENTIAL_SEND
  else if s = "tree_send" then Except.ok SendAlgorithm.TREE_SEND
  else Except.error (("wrong value for RDMC send algorithm: " ++ s) ++ ". Check your config file.")

/-! ## Round-robin global delivery order (derecho_sst.hpp, seq_num, lines 46-60)

The source documents the sequence-number encoding: "(sender, index) becomes
sender + num_members * index. Since the global order is round-robin, the
correct global order of messages becomes a consecutive sequence of these
numbers: with 4 senders, we expect to receive (0,0), (1,0), (2,0), (3,0),
(0,1), (1,1), ... which is 0, 1, 2, 3, 4, 5, ...". -/

/-- The global sequence number of the `idx`-th message of sender rank `s`
in a shard with `k` senders: `s + k * idx` (the source's row-major pair). -/
def seq_of (k s idx : Nat) : Nat := s + k * idx

/-- Modelled from the spec: the decode direction of the round-robin formula,
`(sender, sender_index) = (seq mod k, seq div k)` (spec section 4.2, delivery
predicate, step 1). -/
def sender_of_seq (k i : Nat) : Nat × Nat := (i % k, i / k)

/-- The round-robin delivery schedule for a shard with `k` senders, through
`n` complete rounds: in round `r` each sender rank `0, ..., k-1` contributes
its `r`-th message, in rank order. This is the enumeration documented at
`seq_num` in derecho_sst.hpp. -/
def round_robin_order (k : Nat) : Nat → List (Nat × Nat)
  | 0 => []
  | n + 1 => round_robin_order k n ++ (List.range k).map (fun s => (s, n))

/-! ## GMS view-change counters (derecho_sst.hpp, lines 134-152 and 262-265)

A single SST row's GMS counters. The initial values are those written by the
`DerechoSST` constructor: `num_changes = num_committed = num_installed =
num_acked = 0`. The counter *transitions* (proposal, commit, install, and a
follower copying the leader's row) live in ViewManager, which is not among
the provided sources; they are modelled from the spec, section 4.3:
- PROPOSED: the leader advances `num_changes`, subject to the pending-change
  bound of spec invariant 3 (also stated at `changes[]` in derecho_sst.hpp:
  "num_changes - num_installed ... should never exceed View::num_members/2");
- COMMITTED: the leader advances `num_committed` over proposals already made;
- INSTALLING: `num_installed` is advanced, never past `num_committed`
  (derecho_sst.hpp: "lower bound on num_committed");
- followers copy the leader's counters before acking. -/

structure GMSRow where
  num_changes : Nat
  num_committed : Nat
  num_acked : Nat
  num_installed : Nat
deriving DecidableEq, Repr

/-- Initial GMS counters, from the `DerechoSST` constructor (lines 262-265). -/
def gms_init_row : GMSRow := ⟨0, 0, 0, 0⟩

/-- The GMS-relevant state: the fixed member count of the view and one
`GMSRow` per SST row. -/
structure GMSState where
  num_members : Nat
  row : Nat → GMSRow

/-- A fresh `DerechoSST` for a view with `m` members: every row zeroed. -/
def gms_init (m : Nat) : GMSState :=
  ⟨m, fun _ => gms_init_row⟩

/-- Replace row `r` of the state. -/
def gms_set_row (s : GMSState) (r : Nat) (v : GMSRow) : GMSState :=
  ⟨s.num_members, fun i => if i = r then v else s.row i⟩

/-- Modelled from the spec: the view-change counter transitions of
ViewManager (spec section 4.3), which is not among the provided sources.
`propose` appends a change on row `r` subject to the pending-proposal bound;
`ack` acknowledges a seen proposal; `commit` commits an existing proposal;
`install` installs a committed change; `copy` lets a follower copy another
row's counters (the leader's) before acking. -/
inductive GMSStep : GMSState → GMSState → Prop
  | propose (s : GMSState) (r : Nat) (hr : r < s.num_members)
      (hbound : (s.row r).num_changes - (s.row r).num_installed < s.num_members / 2) :
      GMSStep s (gms_set_row s r
        ⟨(s.row r).num_changes + 1, (s.row r).num_committed,
         (s.row r).num_acked, (s.row r).num_installed⟩)
  | ack (s : GMSState) (r : Nat) (hr : r < s.num_members)
      (hseen : (s.row r).num_acked < (s.row r).num_changes) :
      GMSStep s (gms_set_row s r
        ⟨(s.row r).num_changes, (s.row r).num_committed,
         (s.row r).num_acked + 1, (s.row r).num_installed⟩)
  | commit (s : GMSState) (r : Nat) (hr : r < s.num_members)
      (hpending : (s.row r).num_committed < (s.row r).num_changes) :
      GMSStep s (gms_set_row s r
        ⟨(s.row r).num_changes, (s.row r).num_committed + 1,
         (s.row r).num_acked, (s.row r).num_installed⟩)
  | install (s : GMSState) (r : Nat) (hr : r < s.num_members)
      (hcommitted : (s.row r).num_installed < (s.row r).num_committed) :
      GMSStep s (gms_set_row s r
        ⟨(s.row r).num_changes, (s.row r).num_committed,
         (s.row r).num_acked, (s.row r).num_installed + 1⟩)
  | copy (s : GMSState) (r r' : Nat) (hr : r < s.num_members) (hr' : r' < s.num_members) :
      GMSStep s (gms_set_row s r (s.row r'))

/-- States reachable from a freshly constructed SST by GMS steps. -/
inductive GMSReachable : GMSState → Prop
  | init (m : Nat) : GMSReachable (gms_init m)
  | step {s t : GMSState} : GMSReachable s → GMSStep s t → GMSReachable t

/-! ## Multicast delivery counters (derecho_sst.hpp, seq_num / delivered_num)

Per-row, per-subgroup `seq_num` and `delivered_num` (`message_id_t`, a
signed integer). Their transitions live in MulticastGroup's receive and
delivery predicates, which are not among the provided sources; they are
modelled from the spec, section 4.2: `seq_num` advances monotonically as
in-order messages arrive, and the delivery predicate advances the local
`delivered_num[g]` only up to the global stable count, the minimum of
`seq_num[g]` over the shard's rows. Initially no message has been received
or delivered, so both counters start at -1 (message ids count from 0). -/

structure MCState where
  num_rows : Nat
  seq_num : Nat → Nat → Int
  delivered_num : Nat → Nat → Int

/-- Modelled from the spec: initial multicast counters, all -1 (nothing
received in order, nothing delivered); row initialization itself is done by
`MulticastGroup::initialize_sst_row`, not among the provided sources. -/
def mc_init (rows : Nat) : MCState :=
  ⟨rows, fun _ _ => -1, fun _ _ => -1⟩

/-- Modelled from the spec (section 4.2): `receive` advances a row's
`seq_num[g]` monotonically as the receive predicate records in-order
arrivals; `deliver` advances a row's `delivered_num[g]` monotonically, never
past the global stable count `min over rows of seq_num[g]`. -/
inductive MCStep : MCState → MCState → Prop
  | receive (s : MCState) (r g : Nat) (v : Int) (hr : r < s.num_rows)
      (hmono : s.seq_num r g ≤ v) :
      MCStep s ⟨s.num_rows,
        fun r' g' => if r' = r ∧ g' = g then v else s.seq_num r' g',
        s.delivered_num⟩
  | deliver (s : MCState) (r g : Nat) (v : Int) (hr : r < s.num_rows)
      (hmono : s.delivered_num r g ≤ v)
      (hstable : ∀ r', r' < s.num_rows → v ≤ s.seq_num r' g) :
      MCStep s ⟨s.num_rows, s.seq_num,
        fun r' g' => if r' = r ∧ g' = g then v else s.delivered_num r' g'⟩

/-- States reachable by multicast receive/delivery steps. -/
inductive MCReachable : MCState → Prop
  | init (rows : Nat) : MCReachable (mc_init rows)
  | step {s t : MCState} : MCReachable s → MCStep s t → MCReachable t

/-! ## wait_for_global_persistence_frontier (multicast_group.hpp, lines 589-593)

Only the declaration and its documentation are among the provided sources;
the body lives in multicast_group.cpp. Modelled from the spec (sections 4.2
and 7, error kind 5): the call returns false immediately if the requested
version is beyond the latest delivered version, returns false if the group
is shutting down, and otherwise blocks until the subgroup's global
persistence frontier (`minimum_persisted_version`) reaches the requested
version, then returns true. Blocking is embedded by scanning the frontier's
future trajectory `fr : Nat → Int` up to a time horizon; `none` means the
call is still blocked within that horizon. -/

/-- Earliest scan time `t`, starting at `t0` and taking at most `fuel`
steps, at which the frontier trajectory has reached `version`. -/
def first_reach (fr : Nat → Int) (version : Int) : Nat → Nat → Option Nat
  | _, 0 => none
  | t0, fuel + 1 =>
    if version ≤ fr t0 then some t0 else first_reach fr version (t0 + 1) fuel

/-- Modelled from the spec: `MulticastGroup::wait_for_global_persistence_frontier`.
`delivered` is the subgroup's latest delivered version, `shutdown` the group's
`thread_shutdown` flag, `fr` the future trajectory of the subgroup's global
persistence frontier, and `horizon` how far that trajectory is examined.
Returns `some false` (immediately, independent of the trajectory) when the
request is known impossible or the group is shutting down, `some true` once
the frontier reaches the version, and `none` while still blocked. -/
def wait_for_global_persistence_frontier (shutdown : Bool) (delivered : Int)
    (fr : Nat → Int) (horizon : Nat) (version : Int) : Option Bool :=
  if delivered < version then some false
  else if shutdown then some false
  else (first_reach fr version 0 horizon).map (fun _ => true)

/-! ## The latency test (applications/archive/latency_test.cpp)

The membership function (lines 90-124) and the stability callback (lines
60-83), embedded over a generic members list. `make_subview` packages the
member list, delivery mode and sender flags into the shard's SubView; per
the comment at line 101, calling it without sender flags defaults to all
members sending. `uint`/`size_t` arithmetic in the sender-marking loops is
taken modulo `2 ^ 64` where it can wrap (`num_members - 1` for an empty
member list). -/

inductive Mode
  | ORDERED
  | UNORDERED
deriving DecidableEq, Repr

structure SubView where
  members : List Nat
  mode : Mode
  is_sender : List Nat
deriving DecidableEq, Repr

/-- `View::make_subview` with explicit sender flags. -/
def make_subview (members : List Nat) (mode : Mode) (is_sender : List Nat) : SubView :=
  ⟨members, mode, is_sender⟩

/-- `View::make_subview` without sender flags: defaults to all members
sending (latency_test.cpp line 101). -/
def make_subview_default (members : List Nat) (mode : Mode) : SubView :=
  ⟨members, mode, List.replicate members.length 1⟩

/-- The exception thrown when a membership function cannot produce a layout. -/
structure subgroup_provisioning_exception where
deriving DecidableEq, Repr

/-- Number of messages each sender sends in the latency test (line 54). -/
def latency_test_num_messages : Nat := 1000

/-- Sender flags built by the latency test for `num_senders_selector = 1`
(half senders): `is_sender` starts all 1, then ranks `0 .. (num_members-1)/2`
are set to 0 (lines 106-112); `num_members - 1` is `size_t` arithmetic. -/
def half_senders_flags (num_members : Nat) : List Nat :=
  (List.range num_members).map
    (fun i => if i ≤ u64_wrap (num_members + 2 ^ 64 - 1) / 2 then 0 else 1)

/-- Sender flags for `num_senders_selector = 2` (one sender): all ranks
except the last are set to 0 (lines 113-118). -/
def one_sender_flags (num_members : Nat) : List Nat :=
  (List.range num_members).map
    (fun i => if i < u64_wrap (num_members + 2 ^ 64 - 1) then 0 else 1)

/-- The latency test's `membership_function` (lines 90-124): build one
subgroup with one shard; if fewer than `num_nodes` members have joined,
throw `subgroup_provisioning_exception`; otherwise the single shard holds
all current members, with sender flags per `num_senders_selector`. -/
def membership_function (num_senders_selector num_nodes : Nat) (mode : Mode)
    (curr_view_members : List Nat) :
    Except subgroup_provisioning_exception (List (List SubView)) :=
  let num_members := curr_view_members.length
  if num_members < num_nodes then
    Except.error ⟨⟩
  else if num_senders_selector = 0 then
    Except.ok [[make_subview_default curr_view_members mode]]
  else if num_senders_selector = 1 then
    Except.ok [[make_subview curr_view_members mode (half_senders_flags num_members)]]
  else
    Except.ok [[make_subview curr_view_members mode (one_sender_flags num_members)]]

/-- One invocation of the latency test's `stability_callback` (lines 60-83),
restricted to its delivery accounting: increment `num_delivered`, and set
`done` when the count reaches the selector-dependent target
(`num_messages * num_nodes`, `num_messages * (num_nodes / 2)`, or
`num_messages`). Returns the updated `(num_delivered, done)`. -/
def stability_callback_step (num_senders_selector num_nodes num_messages : Nat)
    (num_delivered : Nat) (done : Bool) : Nat × Bool :=
  let nd := num_delivered + 1
  let target :=
    if num_senders_selector = 0 then num_messages * num_nodes
    else if num_senders_selector = 1 then num_messages * (num_nodes / 2)
    else num_messages
  (nd, if nd = target then true else done)

/-! ## split_string (src/conf/conf.cpp, lines 326-336)

`std::vector<std::string> split_string(str, delimiter)`: repeatedly
`find` the delimiter from `lastpos` and push `str.substr(lastpos, nextpos)`
(note: the second argument of `substr` is a character *count*), then
advance `lastpos` past the found occurrence; finally push
`str.substr(lastpos)`. Strings are embedded as `List Char`; the loop is
embedded with fuel `str.length + 1`, which is enough because `lastpos`
strictly increases and never exceeds `str.length` while the loop runs
(each found occurrence has a nonempty delimiter fitting inside the string). -/

/-- Does pattern `d` occur at the very start of `s`? -/
def starts_with : List Char → List Char → Bool
  | [], _ => true
  | _ :: _, [] => false
  | d :: ds, c :: cs => d == c && starts_with ds cs

/-- `std::string::find(d, pos)` on `s`: the smallest position `p ≥ pos` at
which `d` occurs in full, `none` for `npos`. Scans with explicit fuel. -/
def find_from (s d : List Char) : Nat → Nat → Option Nat
  | _, 0 => none
  | pos, fuel + 1 =>
    if starts_with d (s.drop pos) then some pos
    else if pos < s.length then find_from s d (pos + 1) fuel
    else none

/-- `std::string::substr(pos, count)`: at most `count` characters starting
at `pos`, clamped to the end of the string. -/
def substr (s : List Char) (pos count : Nat) : List Char :=
  (s.drop pos).take count

/-- `std::string::substr(pos)`: everything from `pos` to the end. -/
def substr_from (s : List Char) (pos : Nat) : List Char :=
  s.drop pos

/-- The `while` loop of `split_string`, from position `lastpos`, with fuel. -/
def split_loop (s d : List Char) : Nat → Nat → List (List Char)
  | _, 0 => []
  | lastpos, fuel + 1 =>
    match find_from s d lastpos (s.length + 1 - lastpos) with
    | none => [substr_from s lastpos]
    | some nextpos => substr s lastpos nextpos :: split_loop s d (nextpos + d.length) fuel

/-- `derecho::split_string` (conf.cpp lines 326-336). -/
def split_string (s d : List Char) : List (List Char) :=
  split_loop s d 0 (s.length + 1)

/-- Joining a list of segments with separator `d`: the inverse the claimed
split specification calls for. -/
def join_with (d : List Char) : List (List Char) → List Char
  | [] => []
  | [x] => x
  | x :: y :: xs => x ++ d ++ join_with d (y :: xs)

/-- Does pattern `d` occur contiguously anywhere in `s`? -/
def contains_seg (d : List Char) : List Char → Bool
  | [] => d.isEmpty
  | c :: cs => starts_with d (c :: cs) || contains_seg d cs

/-- The concrete input exhibiting the `split_string` defect. -/
def c10_input : List Char := ['a', ',', 'b', ',', 'c']

/-- The delimiter for the concrete `split_string` run. -/
def c10_delim : List Char := [',']

/-- A string not naming any RDMC send algorithm, for concrete evaluation. -/
def sample_bad_algorithm : String := "gossip_send"

/-! # Theorems -/

/-- `sizeof(header)` is 32 bytes. -/
theorem sizeof_header_eq : sizeof_header = 32 := by decide

/-- C4: the multicast message header is a packed record of exactly 32 bytes
whose fields appear in the order: a 32-bit unsigned `header_size`, a 32-bit
signed `index`, a 64-bit unsigned `timestamp`, a 32-bit unsigned
`num_nulls`, an 8-bit `cooked_send` flag, three reserved bytes, and a
reserved 64-bit word; the payload begins immediately after these 32 bytes
(at offset `sizeof_header` = 32, with the field offsets 0, 4, 8, 16, 20,
21, 22, 23, 24 forced by packing). -/
theorem C4_header_layout :
    sizeof_header = 32
  ∧ header_fields.map (fun f => f.fname) =
      [HFieldName.header_size, HFieldName.index, HFieldName.timestamp,
       HFieldName.num_nulls, HFieldName.cooked_send, HFieldName.resv_b1,
       HFieldName.resv_b2, HFieldName.resv_b3, HFieldName.resv_q4]
  ∧ size_of_field header_fields HFieldName.header_size = 4
  ∧ signed_of_field header_fields HFieldName.header_size = false
  ∧ size_of_field header_fields HFieldName.index = 4
  ∧ signed_of_field header_fields HFieldName.index = true
  ∧ size_of_field header_fields HFieldName.timestamp = 8
  ∧ signed_of_field header_fields HFieldName.timestamp = false
  ∧ size_of_field header_fields HFieldName.num_nulls = 4
  ∧ signed_of_field header_fields HFieldName.num_nulls = false
  ∧ size_of_field header_fields HFieldName.cooked_send = 1
  ∧ size_of_field header_fields HFieldName.resv_b1 = 1
  ∧ size_of_field header_fields HFieldName.resv_b2 = 1
  ∧ size_of_field header_fields HFieldName.resv_b3 = 1
  ∧ size_of_field header_fields HFieldName.resv_q4 = 8
  ∧ offset_of header_fields HFieldName.header_size = 0
  ∧ offset_of header_fields HFieldName.index = 4
  ∧ offset_of header_fields HFieldName.timestamp = 8
  ∧ offset_of header_fields HFieldName.num_nulls = 16
  ∧ offset_of header_fields HFieldName.cooked_send = 20
  ∧ offset_of header_fields HFieldName.resv_b1 = 21
  ∧ offset_of header_fields HFieldName.resv_b2 = 22
  ∧ offset_of header_fields HFieldName.resv_b3 = 23
  ∧ offset_of header_fields HFieldName.resv_q4 = 24 := by
  decide

/-- C6: `send_algorithm_from_string` returns each of the four algorithms for
exactly its string, and for every other string returns no value, signalling
a configuration error carrying the explanatory message. -/
theorem C6_send_algorithm_cases (s : String) :
    (send_algorithm_from_string s = Except.ok SendAlgorithm.BINOMIAL_SEND ↔ s = "binomial_send")
  ∧ (send_algorithm_from_string s = Except.ok SendAlgorithm.CHAIN_SEND ↔ s = "chain_send")
  ∧ (send_algorithm_from_string s = Except.ok SendAlgorithm.SEQUENTIAL_SEND ↔ s = "sequential_send")
  ∧ (send_algorithm_from_string s = Except.ok SendAlgorithm.TREE_SEND ↔ s = "tree_send")
  ∧ (s ≠ "binomial_send" → s ≠ "chain_send" → s ≠ "sequential_send" → s ≠ "tree_send" →
      send_algorithm_from_string s
        = Except.error (("wrong value for RDMC send algorithm: " ++ s) ++ ". Check your config file.")) := by
  unfold send_algorithm_from_string
  split_ifs with h1 h2 h3 h4 <;> simp_all

/-- C6 witness: a concrete unknown algorithm string yields the error, not a
value. -/
theorem C6_witness :
    send_algorithm_from_string sample_bad_algorithm
      = Except.error (("wrong value for RDMC send algorithm: " ++ sample_bad_algorithm) ++ ". Check your config file.")
  ∧ (send_algorithm_from_string sample_bad_algorithm = Except.ok SendAlgorithm.BINOMIAL_SEND
      ↔ sample_bad_algorithm = "binomial_send") :=
  ⟨(C6_send_algorithm_cases sample_bad_algorithm).2.2.2.2
      (by decide) (by decide) (by decide) (by decide),
   (C6_send_algorithm_cases sample_bad_algorithm).1⟩

/-- C10: evaluating `split_string` on `"a,b,c"` with delimiter `","`. The
code produces `["a", "b,c", "c"]`: the middle element contains the
delimiter, and rejoining the elements with the delimiter yields `"a,b,c,c"`,
not the input — because line 331 passes the absolute position `nextpos` to
`substr` as the character *count* instead of `nextpos - lastpos`. -/
theorem C10_split_string_eval :
    split_string c10_input c10_delim = [['a'], ['b', ',', 'c'], ['c']]
  ∧ contains_seg c10_delim (['b', ',', 'c']) = true
  ∧ join_with c10_delim (split_string c10_input c10_delim) ≠ c10_input := by
  decide

/-- C8: in the latency test with 4 nodes and `num_senders_selector = 1`,
the membership function marks exactly ranks 0 and 1 as non-senders while
all four members remain in the single shard, and the stability callback
sets `done` exactly when the delivered-message count reaches
`1000 * (4 / 2) = 2000`. -/
theorem C8_latency_half_senders (members : List Nat) (h4 : members.length = 4)
    (nd : Nat) (done : Bool) :
    membership_function 1 4 Mode.ORDERED members
      = Except.ok [[make_subview members Mode.ORDERED [0, 0, 1, 1]]]
  ∧ (stability_callback_step 1 4 latency_test_num_messages nd done).1 = nd + 1
  ∧ latency_test_num_messages * (4 / 2) = 2000
  ∧ ((stability_callback_step 1 4 latency_test_num_messages nd false).2 = true
      ↔ nd + 1 = 2000) := by
  have hflags : half_senders_flags 4 = [0, 0, 1, 1] := by decide
  refine ⟨?_, ?_, ?_, ?_⟩
  · simp [membership_function, h4, hflags]
  · simp [stability_callback_step]
  · decide
  · by_cases h : nd + 1 = 2000 <;>
      simp [stability_callback_step, latency_test_num_messages, h]

/-- C8 witness: a concrete 4-member view and a delivery count hitting the
target. -/
theorem C8_witness :
    membership_function 1 4 Mode.ORDERED [10, 20, 30, 40]
      = Except.ok [[make_subview [10, 20, 30, 40] Mode.ORDERED [0, 0, 1, 1]]]
  ∧ (stability_callback_step 1 4 latency_test_num_messages 1999 false).1 = 1999 + 1
  ∧ latency_test_num_messages * (4 / 2) = 2000
  ∧ ((stability_callback_step 1 4 latency_test_num_messages 1999 false).2 = true
      ↔ 1999 + 1 = 2000) :=
  C8_latency_half_senders [10, 20, 30, 40] (by decide) 1999 false

/-- C9: the latency test's membership function throws
`subgroup_provisioning_exception` for every view with fewer than
`num_nodes` members, and for every view with at least `num_nodes` members
returns a layout with exactly one subgroup consisting of one shard
containing all current members. -/
theorem C9_membership_provisioning (num_senders_selector num_nodes : Nat)
    (mode : Mode) (members : List Nat) :
    (members.length < num_nodes →
      membership_function num_senders_selector num_nodes mode members
        = Except.error ⟨⟩)
  ∧ (num_nodes ≤ members.length →
      ∃ flags, membership_function num_senders_selector num_nodes mode members
        = Except.ok [[make_subview members mode flags]]) := by
  constructor
  · intro h
    simp [membership_function, h]
  · intro h
    have h' : ¬ members.length < num_nodes := not_lt.mpr h
    by_cases h0 : num_senders_selector = 0
    · exact ⟨List.replicate members.length 1,
        by simp [membership_function, h', h0, make_subview_default, make_subview]⟩
    · by_cases h1 : num_senders_selector = 1
      · exact ⟨half_senders_flags members.length,
          by simp [membership_function, h', h0, h1]⟩
      · exact ⟨one_sender_flags members.length,
          by simp [membership_function, h', h0, h1]⟩

/-- C9 witness: with `num_nodes = 2`, a 1-member view is rejected and a
2-member view yields the single-subgroup single-shard layout. -/
theorem C9_witness :
    membership_function 0 2 Mode.ORDERED [1] = Except.error ⟨⟩
  ∧ ∃ flags, membership_function 0 2 Mode.ORDERED [1, 2]
      = Except.ok [[make_subview [1, 2] Mode.ORDERED flags]] :=
  ⟨(C9_membership_provisioning 0 2 Mode.ORDERED [1]).1 (by decide),
   (C9_membership_provisioning 0 2 Mode.ORDERED [1, 2]).2 (by decide)⟩

/-- If the frontier trajectory reaches `version` at some time within the
scan window, the scan finds a reach time. -/
theorem first_reach_reaches (fr : Nat → Int) (version : Int) :
    ∀ fuel t0 t, t0 ≤ t → t < t0 + fuel → version ≤ fr t →
      ∃ t₁, first_reach fr version t0 fuel = some t₁ := by
  intro fuel
  induction fuel with
  | zero => intro t0 t h1 h2 _; omega
  | succ n ih =>
    intro t0 t h1 h2 h3
    by_cases h : version ≤ fr t0
    · exact ⟨t0, by simp [first_reach, h]⟩
    · have ht0 : t0 ≠ t := by
        intro he
        exact h (he ▸ h3)
      obtain ⟨t₁, h₁⟩ := ih (t0 + 1) t (by omega) (by omega) h3
      exact ⟨t₁, by simp [first_reach, h, h₁]⟩

/-- C7: `wait_for_global_persistence_frontier` returns false (without
examining the frontier trajectory at all) when the requested version is
beyond the latest delivered version; returns false when the group is
shutting down; and otherwise, once the global persistence frontier reaches
the requested version within the examined horizon, returns true. -/
theorem C7_wait_frontier (shutdown : Bool) (delivered version : Int)
    (fr : Nat → Int) (horizon : Nat) :
    (delivered < version →
      wait_for_global_persistence_frontier shutdown delivered fr horizon version
        = some false)
  ∧ (shutdown = true →
      wait_for_global_persistence_frontier shutdown delivered fr horizon version
        = some false)
  ∧ (shutdown = false → version ≤ delivered →
      ∀ t, t < horizon → version ≤ fr t →
        wait_for_global_persistence_frontier shutdown delivered fr horizon version
          = some true) := by
  refine ⟨?_, ?_, ?_⟩
  · intro h
    simp [wait_for_global_persistence_frontier, h]
  · intro h
    subst h
    by_cases hd : delivered < version <;>
      simp [wait_for_global_persistence_frontier, hd]
  · intro hs hv t ht hr
    have h' : ¬ delivered < version := not_lt.mpr hv
    obtain ⟨t₁, h₁⟩ :=
      first_reach_reaches fr version horizon 0 t (Nat.zero_le t) (by omega) hr
    simp [wait_for_global_persistence_frontier, h', hs, h₁]

/-- C7 witness: concrete runs hitting all three clauses. -/
theorem C7_witness :
    wait_for_global_persistence_frontier false 5 (fun _ => 10) 1 3 = some true
  ∧ wait_for_global_persistence_frontier true 5 (fun _ => 10) 1 3 = some false
  ∧ wait_for_global_persistence_frontier false 5 (fun _ => 10) 0 7 = some false :=
  ⟨(C7_wait_frontier false 5 3 (fun _ => 10) 1).2.2 rfl (by decide) 0
      (by decide) (by decide),
   (C7_wait_frontier true 5 3 (fun _ => 10) 1).2.1 rfl,
   (C7_wait_frontier false 5 7 (fun _ => 10) 0).1 (by decide)⟩

/-- Length of the round-robin schedule: `k` messages per round. -/
theorem round_robin_order_length (k n : Nat) :
    (round_robin_order k n).length = k * n := by
  induction n with
  | zero => simp [round_robin_order]
  | succ m ih => simp [round_robin_order, ih, Nat.mul_succ]

/-- Position `i` of the round-robin schedule holds `(i % k, i / k)`. -/
theorem round_robin_order_getElem (k : Nat) (hk : 0 < k) :
    ∀ n i, i < k * n → (round_robin_order k n)[i]? = some (i % k, i / k) := by
  intro n
  induction n with
  | zero =>
    intro i hi
    exact absurd hi (by simp)
  | succ m ih =>
    intro i hi
    rw [round_robin_order]
    by_cases h : i < k * m
    · rw [List.getElem?_append_left (by rw [round_robin_order_length]; exact h)]
      exact ih i h
    · have h1 : (round_robin_order k m).length ≤ i := by
        rw [round_robin_order_length]; omega
      rw [List.getElem?_append_right h1, round_robin_order_length]
      have hj : i - k * m < k := by
        rw [Nat.mul_succ] at hi; omega
      rw [List.getElem?_map, List.getElem?_range hj]
      have hij : i = (i - k * m) + k * m := by omega
      rw [Option.map_some']
      refine congrArg some (Prod.ext ?_ ?_)
      · show i - k * m = i % k
        conv_rhs => rw [hij]
        rw [Nat.add_mul_mod_self_left, Nat.mod_eq_of_lt hj]
      · show m = i / k
        conv_rhs => rw [hij]
        rw [Nat.add_mul_div_left _ _ hk, Nat.div_eq_of_lt hj, Nat.zero_add]

/-- C3: for a shard with `k` senders, the `i`-th entry of the round-robin
global delivery order is sender rank `i mod k` delivering its `(i div k)`-th
message; equivalently the spec's decode formula inverts the source's
sequence-number encoding `seq = s + k * idx`. -/
theorem C3_round_robin (k n i : Nat) (hk : 0 < k) (hi : i < k * n) :
    (round_robin_order k n)[i]? = some (sender_of_seq k i)
  ∧ ∀ s idx, s < k → sender_of_seq k (seq_of k s idx) = (s, idx) := by
  constructor
  · exact round_robin_order_getElem k hk n i hi
  · intro s idx hs
    unfold sender_of_seq seq_of
    refine Prod.ext ?_ ?_
    · show (s + k * idx) % k = s
      rw [Nat.add_mul_mod_self_left, Nat.mod_eq_of_lt hs]
    · show (s + k * idx) / k = idx
      rw [Nat.add_mul_div_left _ _ hk, Nat.div_eq_of_lt hs, Nat.zero_add]

/-- C3 witness: two senders, three rounds, sequence number 5. -/
theorem C3_witness :
    (round_robin_order 2 3)[5]? = some (sender_of_seq 2 5)
  ∧ sender_of_seq 2 (seq_of 2 1 2) = (1, 2) :=
  ⟨(C3_round_robin 2 3 5 (by decide) (by decide)).1,
   (C3_round_robin 2 3 5 (by decide) (by decide)).2 1 2 (by decide)⟩

/-- C1: in every reachable GMS state and every SST row,
`num_installed ≤ num_committed ≤ num_changes`, and the number of
pending-but-uninstalled proposals `num_changes - num_installed` never
exceeds half the number of view members. -/
theorem C1_gms_counter_invariant (s : GMSState) (h : GMSReachable s) :
    ∀ r : Nat,
      (s.row r).num_installed ≤ (s.row r).num_committed
    ∧ (s.row r).num_committed ≤ (s.row r).num_changes
    ∧ (s.row r).num_changes - (s.row r).num_installed ≤ s.num_members / 2 := by
  induction h with
  | init m =>
    intro r
    exact ⟨Nat.le_refl 0, Nat.le_refl 0, by simp [gms_init, gms_init_row]⟩
  | step hre hstep ih =>
    cases hstep with
    | propose r0 hr hbound =>
      intro r
      have h0 := ih r0
      have h1 := ih r
      by_cases hir : r = r0 <;> simp [gms_set_row, hir] at h0 h1 ⊢ <;> omega
    | ack r0 hr hseen =>
      intro r
      have h0 := ih r0
      have h1 := ih r
      by_cases hir : r = r0 <;> simp [gms_set_row, hir] at h0 h1 ⊢ <;> omega
    | commit r0 hr hpending =>
      intro r
      have h0 := ih r0
      have h1 := ih r
      by_cases hir : r = r0 <;> simp [gms_set_row, hir] at h0 h1 ⊢ <;> omega
    | install r0 hr hcommitted =>
      intro r
      have h0 := ih r0
      have h1 := ih r
      by_cases hir : r = r0 <;> simp [gms_set_row, hir] at h0 h1 ⊢ <;> omega
    | copy r0 r1 hr hr1 =>
      intro r
      have h0 := ih r1
      have h1 := ih r
      by_cases hir : r = r0 <;> simp [gms_set_row, hir] at h0 h1 ⊢ <;> omega

/-- C1 witness: the freshly constructed SST of a 4-member view, row 0. -/
theorem C1_witness :
    ((gms_init 4).row 0).num_installed ≤ ((gms_init 4).row 0).num_committed
  ∧ ((gms_init 4).row 0).num_committed ≤ ((gms_init 4).row 0).num_changes
  ∧ ((gms_init 4).row 0).num_changes - ((gms_init 4).row 0).num_installed
      ≤ (gms_init 4).num_members / 2 :=
  C1_gms_counter_invariant (gms_init 4) (GMSReachable.init 4) 0

/-- C2: in every reachable multicast state, every row's delivered counter is
bounded by its received-in-order counter: `delivered_num[g] ≤ seq_num[g]`. -/
theorem C2_delivered_le_seq (s : MCState) (h : MCReachable s) :
    ∀ r g : Nat, s.delivered_num r g ≤ s.seq_num r g := by
  induction h with
  | init rows =>
    intro r g
    exact le_refl (-1)
  | @step s1 s2 hre hstep ih =>
    cases hstep with
    | receive r0 g0 v hr hmono =>
      intro r g
      show s1.delivered_num r g ≤ if r = r0 ∧ g = g0 then v else s1.seq_num r g
      by_cases hc : r = r0 ∧ g = g0
      · rw [if_pos hc]
        refine le_trans (ih r g) ?_
        rw [hc.1, hc.2]
        exact hmono
      · rw [if_neg hc]
        exact ih r g
    | deliver r0 g0 v hr hmono hstable =>
      intro r g
      show (if r = r0 ∧ g = g0 then v else s1.delivered_num r g) ≤ s1.seq_num r g
      by_cases hc : r = r0 ∧ g = g0
      · rw [if_pos hc, hc.2]
        refine hstable r ?_
        rw [hc.1]
        exact hr
      · rw [if_neg hc]
        exact ih r g

/-- C2 witness: the initial state of a 4-row SST, row 0, subgroup 0. -/
theorem C2_witness :
    (mc_init 4).delivered_num 0 0 ≤ (mc_init 4).seq_num 0 0 :=
  C2_delivered_le_seq (mc_init 4) (MCReachable.init 4) 0 0

/-- C5 counterexample: with `max_payload_size = max_smc_payload_size =
2^64 - 1` and `block_size = 1 > 0`, the constructor's `uint64_t` sums wrap,
so `sst_max_msg_size` is 31, not `m + 32`, and (though `p ≤ m`)
`max_msg_size` is 31, not `p + 32`. -/
theorem C5_counterexample :
    (DerechoParams.make (2 ^ 64 - 1) 0 (2 ^ 64 - 1) 1).sst_max_msg_size
      ≠ 2 ^ 64 - 1 + 32
  ∧ (DerechoParams.make (2 ^ 64 - 1) 0 (2 ^ 64 - 1) 1).max_msg_size
      ≠ 2 ^ 64 - 1 + 32 := by
  decide

/-- C5 (amended): for every `p`, `m`, `b` with `b > 0` whose sums stay in
`uint64_t` range (`m + 32 < 2^64` and `p + 32 + b ≤ 2^64`), the constructor
produces `sst_max_msg_size = m + 32`; `max_msg_size = p + 32` when `p ≤ m`;
and otherwise `max_msg_size` is the least multiple of `b` that is at least
`p + 32`. -/
theorem C5_amended (p m b : Nat) (hb : 0 < b)
    (hm : m + sizeof_header < 2 ^ 64) (hp : p + sizeof_header + b ≤ 2 ^ 64) :
    (DerechoParams.make p 0 m b).sst_max_msg_size = m + 32
  ∧ (p ≤ m → (DerechoParams.make p 0 m b).max_msg_size = p + 32)
  ∧ (m < p →
        (DerechoParams.make p 0 m b).max_msg_size % b = 0
      ∧ p + 32 ≤ (DerechoParams.make p 0 m b).max_msg_size
      ∧ ∀ y, y % b = 0 → p + 32 ≤ y →
          (DerechoParams.make p 0 m b).max_msg_size ≤ y) := by
  have h32 : sizeof_header = 32 := sizeof_header_eq
  rw [h32] at hm hp
  refine ⟨?_, ?_, ?_⟩
  · show u64_wrap (m + sizeof_header) = m + 32
    rw [h32]
    exact Nat.mod_eq_of_lt hm
  · intro hpm
    show compute_max_msg_size p b (decide (m < p)) = p + 32
    rw [decide_eq_false (not_lt.mpr hpm)]
    show u64_wrap (p + sizeof_header) = p + 32
    rw [h32]
    exact Nat.mod_eq_of_lt (by omega)
  · intro hmp
    have hxlt : p + 32 < 2 ^ 64 := by omega
    have hmms : u64_wrap (p + sizeof_header) = p + 32 := by
      rw [h32]
      exact Nat.mod_eq_of_lt hxlt
    have hgoal : (DerechoParams.make p 0 m b).max_msg_size
        = if (p + 32) % b ≠ 0 then u64_wrap (((p + 32) / b + 1) * b) else p + 32 := by
      show compute_max_msg_size p b (decide (m < p)) = _
      rw [decide_eq_true hmp]
      unfold compute_max_msg_size
      rw [hmms]
      simp
    by_cases hxb : (p + 32) % b = 0
    · rw [hgoal, if_neg (by simpa using hxb)]
      refine ⟨hxb, le_refl _, fun y _ hy => hy⟩
    · have hdm : b * ((p + 32) / b) + (p + 32) % b = p + 32 := Nat.div_add_mod _ b
      have hrem : 0 < (p + 32) % b := Nat.pos_of_ne_zero hxb
      have hremb : (p + 32) % b < b := Nat.mod_lt _ hb
      have hmul : ((p + 32) / b + 1) * b = b * ((p + 32) / b) + b := by ring
      have hlt : ((p + 32) / b + 1) * b < 2 ^ 64 := by omega
      rw [hgoal, if_pos hxb]
      unfold u64_wrap
      rw [Nat.mod_eq_of_lt hlt]
      refine ⟨Nat.mul_mod_left _ _, by omega, ?_⟩
      intro y hy hxy
      have hyy : b * (y / b) = y := by
        have := Nat.div_add_mod y b
        omega
      have hq : (p + 32) / b < y / b := by
        by_contra hcon
        push_neg at hcon
        have hle : b * (y / b) ≤ b * ((p + 32) / b) := Nat.mul_le_mul_left b hcon
        omega
      calc ((p + 32) / b + 1) * b = b * ((p + 32) / b + 1) := by ring
        _ ≤ b * (y / b) := Nat.mul_le_mul_left b hq
        _ = y := hyy

/-- C5 witness: concrete parameters exercising both the slot-plane case
(`p ≤ m`) and the block-plane rounding case (`m < p`). -/
theorem C5_amended_witness :
    (DerechoParams.make 100 0 200 7).sst_max_msg_size = 200 + 32
  ∧ (DerechoParams.make 100 0 200 7).max_msg_size = 100 + 32
  ∧ (DerechoParams.make 100 0 50 7).max_msg_size % 7 = 0
  ∧ 100 + 32 ≤ (DerechoParams.make 100 0 50 7).max_msg_size := by
  have h1 := C5_amended 100 200 7 (by decide) (by decide) (by decide)
  have h2 := C5_amended 100 50 7 (by decide) (by decide) (by decide)
  exact ⟨h1.1, h1.2.1 (by decide), (h2.2.2 (by decide)).1, (h2.2.2 (by decide)).2.1⟩
